import Mathlib

/-!
Verification of the ata² streaming request/response engine.

This file gives a shallow embedding, in Lean 4, of the core of the `ata²`
terminal client (sources: `src/prompt.rs`, `src/main.rs`, `src/config.rs`)
and proves properties of it.  Rust strings are modelled by `String` or
`List Char`; `serde_json::Value` by the inductive `Json`; the result of
`serde_json::from_str` is passed in as an explicit `parse` function (the
parser itself is external library code); fallible operations that can
panic (`Option::unwrap`) return `Option`, with `none` standing for a panic.
The shared atomic flags (`is_running`, `abort`, `had_first_interrupt`) are
modelled as explicit state; the value the streaming loop observes at its
k-th load of the `abort` flag is supplied by an environment schedule
`abortSig : Nat → Bool`, which faithfully represents the producer thread
storing to the flag at arbitrary times.
-/

namespace Ata2

/-! ## JSON values (model of serde_json::Value) -/

/-- Model of `serde_json::Value`.  `num` covers integer configuration
values (`max_tokens : i64`); `fnum` covers floating-point configuration
values, modelled exactly as rationals. -/
inductive Json where
  | null
  | bool (b : Bool)
  | num (n : Int)
  | fnum (q : Rat)
  | str (s : String)
  | arr (elems : List Json)
  | obj (fields : List (String × Json))

/-- Model of `Value::get(key)`: `Some(&value)` when `self` is an object
containing `key`, `None` otherwise. -/
def jsonGet (v : Json) (k : String) : Option Json :=
  match v with
  | .obj fields => fields.lookup k
  | _ => none

/-- Model of `value[key]` (serde_json `Index<&str>` on `Value`): the value
for `key` when present, `Value::Null` when the key is absent or `self` is
not an object. -/
def jsonKey (v : Json) (k : String) : Json :=
  (jsonGet v k).getD .null

/-- Model of `value[i]` (serde_json `Index<usize>` on `Value`): the i-th
element when `self` is an array and `i` is in bounds, `Value::Null`
otherwise. -/
def jsonAt (v : Json) (i : Nat) : Json :=
  match v with
  | .arr elems => (elems.get? i).getD .null
  | _ => .null

/-- Model of `Value::as_str`. -/
def asStr : Json → Option String
  | .str s => some s
  | _ => none

/-- `prompt.rs` lines 118–120: `value.as_str().unwrap().to_string()`.
The `unwrap` panics when the value is not a string; the panic is modelled
by `none`. -/
def value2unquoted_text (v : Json) : Option String :=
  asStr v

/-! ## Retry policy (`should_retry`, prompt.rs lines 122–141) -/

/-- `prompt.rs` lines 122–141.  The argument `parsed` is the result of
`serde_json::from_str(line)`: `none` for unparsable input (the `Err(_)`
arm returns `false`).  The result is `none` when the function panics
(the `.unwrap()` inside `value2unquoted_text` applied to
`v["error"]["type"]`), otherwise `some` of the returned boolean. -/
def should_retry (parsed : Option Json) (count : Int) : Option Bool :=
  match parsed with
  | none => some false
  | some v =>
    if (jsonGet v "error").isSome then
      match value2unquoted_text (jsonKey (jsonKey v "error") "type") with
      | none => none
      | some error_type =>
        if count < 3 ∧ error_type = "server_error" then some true else some false
    else some false

/-! ## Input sanitizing (`sanitize_input`, prompt.rs lines 40–43) -/

/-- Model of Rust `str::trim_end_matches("\n")`: repeatedly strip the
suffix `"\n"`, i.e. drop all trailing newline characters. -/
def trimNL (cs : List Char) : List Char :=
  (cs.reverse.dropWhile (fun c => c = '\n')).reverse

/-- Model of Rust `str::replace('"', "\\\"")`: every double-quote
character becomes the two-character sequence backslash, double-quote. -/
def escQuotes : List Char → List Char
  | [] => []
  | c :: cs => (if c = '"' then ['\\', '"'] else [c]) ++ escQuotes cs

/-- `prompt.rs` lines 40–43: trim trailing newlines, then escape
double quotes. -/
def sanitize_input (input : String) : String :=
  ⟨escQuotes (trimNL input.data)⟩

/-! ## Token reassembly (prompt.rs lines 89–116) -/

/-- Model of `str::replace("\\n", "\n")` as used in `join_and_clear`:
left-to-right, non-overlapping replacement of the two-character sequence
backslash, `n` by a newline character. -/
def fixEsc : List Char → List Char
  | '\\' :: 'n' :: cs => '\n' :: fixEsc cs
  | c :: cs => c :: fixEsc cs
  | [] => []

/-- String-level wrapper for `fixEsc`. -/
def normalizeEsc (s : String) : String :=
  ⟨fixEsc s.data⟩

/-- Model of `Vec::join("")` on the print buffer. -/
def concatAll (buf : List String) : String :=
  buf.foldl (· ++ ·) ""

/-- `prompt.rs` lines 89–92: push the fragment onto the buffer and return
the empty string.  Result is (returned text, new buffer). -/
def store_and_do_nothing (buf : List String) (text : String) : String × List String :=
  ("", buf ++ [text])

/-- `prompt.rs` lines 94–99: join the buffered fragments with the new one,
clear the buffer, and replace every literal backslash-n by a newline. -/
def join_and_clear (buf : List String) (text : String) : String × List String :=
  (normalizeEsc (concatAll buf ++ text), [])

/-- Model of Rust `str::ends_with("\\")`: the last character is a
backslash (false on the empty string). -/
def endsBackslash (s : String) : Bool :=
  s.data.getLast? = some '\\'

/-- `prompt.rs` lines 103–112 (`fix_newlines`): buffer fragments ending in
a lone backslash; flush the buffer on the next fragment that does not. -/
def fix_newlines (buf : List String) (text : String) : String × List String :=
  if endsBackslash text then store_and_do_nothing buf text
  else if buf ≠ [] then join_and_clear buf text
  else (text, buf)

/-- `prompt.rs` lines 114–116. -/
def post_process (buf : List String) (text : String) : String × List String :=
  fix_newlines buf text

/-! ## Configuration (`config.rs`) -/

/-- `config.rs` lines 47–60 (`UiConfig`); the history-file path is kept as
a plain string. -/
structure UiConfig where
  double_ctrlc : Bool
  hide_config : Bool
  redact_api_key : Bool
  multiline_insertions : Bool
  save_history : Bool
  history_file : String

/-- `config.rs` lines 66–80 (`Config`).  `f64` fields are modelled as
rationals, `i64` as `Int`, `u64` as `Nat`, and the `logit_bias` hash map
as an association list. -/
structure Config where
  api_key : Option String
  model : String
  max_tokens : Int
  temperature : Rat
  suffix : Option String
  top_p : Rat
  n : Nat
  stream : Bool
  stop : List String
  presence_penalty : Rat
  frequency_penalty : Rat
  logit_bias : List (String × Rat)
  ui : UiConfig

/-- `config.rs` lines 83–139 (`Config::validate`), restricted to its pure
checks.  The final `self.ui.validate()` call inspects filesystem metadata
of the history directory and is outside the model. -/
def Config.validOk (c : Config) : Bool :=
  (match c.api_key with | some k => k ≠ "" | none => true) &&
  c.model ≠ "" &&
  (1 ≤ c.max_tokens && c.max_tokens ≤ 2048) &&
  (0 ≤ c.temperature && c.temperature ≤ 1) &&
  (match c.suffix with | some s => s ≠ "" | none => true) &&
  (0 ≤ c.top_p && c.top_p ≤ 1) &&
  (1 ≤ c.n && c.n ≤ 10) &&
  (c.stop.all (fun s => s ≠ "") && c.stop.length ≤ 4) &&
  (0 ≤ c.presence_penalty && c.presence_penalty ≤ 1) &&
  (0 ≤ c.frequency_penalty && c.frequency_penalty ≤ 1) &&
  (c.logit_bias.all (fun kv => -2 ≤ kv.2 && kv.2 ≤ 2))

/-! ## Request body (prompt.rs lines 158–173) -/

/-- `prompt.rs` lines 161–173: the JSON body of the outbound POST request.
It is built from the sanitized prompt and exactly the configuration
fields the code reads (`model`, `max_tokens`, `temperature`), plus the
constant `"stream": true`; `messages` always holds a single user
message. -/
def request_body (config : Config) (prompt : String) : Json :=
  Json.obj
    [("model", .str config.model),
     ("messages", .arr
       [Json.obj [("role", .str "user"), ("content", .str (sanitize_input prompt))]]),
     ("max_tokens", .num config.max_tokens),
     ("temperature", .fnum config.temperature),
     ("stream", .bool true)]

/-! ## JSON string serialization (model of serde_json string encoding)

Used only to state what the provider receives after the body is
serialized and the provider's JSON decoder undoes the escaping. -/

/-- Escaping of one character inside a JSON string literal, as the
serializer performs it (backslash, quote and newline are the characters
relevant to this code path). -/
def jsonEscapeChar (c : Char) : List Char :=
  if c = '\\' then ['\\', '\\']
  else if c = '"' then ['\\', '"']
  else if c = '\n' then ['\\', 'n']
  else [c]

/-- JSON string-literal escaping of a whole string. -/
def jsonEscape : List Char → List Char
  | [] => []
  | c :: cs => jsonEscapeChar c ++ jsonEscape cs

/-- JSON string-literal unescaping, as the provider's decoder performs it:
a backslash followed by `n` decodes to a newline, a backslash followed by
any other character decodes to that character. -/
def jsonUnescape : List Char → List Char
  | [] => []
  | [c] => [c]
  | c :: d :: cs =>
    if c = '\\' then (if d = 'n' then '\n' else d) :: jsonUnescape cs
    else c :: jsonUnescape (d :: cs)

/-! ## The streaming loop (prompt.rs lines 143–285)

The loop state mirrors the local variables of `request`; `printed`
accumulates everything written to stdout by `print_and_flush`. -/

/-- How the modelled `request` call ends.
`finished` is `Ok(false)` (`finish_prompt` ran or `print_error` ran);
`retry` is `Ok(true)`;
`errThrown` is an `Err` propagated by a `?` operator
(`serde_json::from_str(data)?` or a body-chunk error);
`panicked` is an `unwrap` panic. -/
inductive Outcome where
  | finished
  | retry
  | errThrown
  | panicked
  deriving DecidableEq

/-- The mutable locals of the streaming loop in `request`. -/
structure LoopState where
  had_first_success : Bool
  print_buffer : List String
  printed : String
  checks : Nat
  deriving DecidableEq

/-- The observable result of one `request` call.  `is_running` and
`abortCleared` record the flag values when the call returns (`is_running`
stays `true` on `retry`, `errThrown` and `panicked`, because only
`finish_prompt` stores `false`); `leftover` is the pending fragment
buffer at the end; `checks` counts loads of the `abort` flag. -/
structure ReqResult where
  outcome : Outcome
  printed : String
  leftover : List String
  is_running : Bool
  abortCleared : Bool
  checks : Nat
  deriving DecidableEq

/-- Build a result from the current loop state. -/
def mkStop (out : Outcome) (running cleared : Bool) (st : LoopState) : ReqResult :=
  ⟨out, st.printed, st.print_buffer, running, cleared, st.checks⟩

/-- Outcome of processing one SSE segment: continue the loop (the boolean
says whether control reaches the abort-flag check, which the two
`continue` statements skip), or return from `request`. -/
inductive StepRes where
  | cont (st : LoopState) (checkAbort : Bool)
  | stop (r : ReqResult)
  deriving DecidableEq

/-- Model of `&str::split("\n\n")` on one chunk: split on the
two-character blank-line separator, left to right, non-overlapping. -/
def splitEvents : List Char → List (List Char)
  | '\n' :: '\n' :: cs => [] :: splitEvents cs
  | c :: cs =>
    match splitEvents cs with
    | e :: es => (c :: e) :: es
    | [] => [[c]]
  | [] => [[]]

/-- `prompt.rs` lines 228–274: the body of `for line in events`, up to but
not including the abort-flag check.  `parse` models
`serde_json::from_str`; `count` is the attempt counter.  The line is the
character sequence of one SSE segment. -/
def processLine (parse : String → Option Json) (count : Int)
    (st : LoopState) (line : List Char) : StepRes :=
  if ['d', 'a', 't', 'a', ':'].isPrefixOf line then
    -- `&line[6..]` panics when the line is shorter than 6 bytes
    -- (the prefix itself is only 5 bytes long).
    if line.length < 6 then .stop (mkStop .panicked true false st)
    else
      if (⟨line.drop 6⟩ : String) = "[DONE]" then .stop (mkStop .finished false false st)
      else
        match parse ⟨line.drop 6⟩ with
        | none => .stop (mkStop .errThrown true false st)
        | some v =>
          if (jsonGet v "choices").isSome then
            match jsonGet (jsonAt (jsonKey v "choices") 0) "delta" with
            | none => .cont st false          -- `continue`: skips the abort check
            | some delta =>
              if (jsonGet delta "content").isNone then
                .cont st false                -- role marker: `continue`, skips the check
              else
                match value2unquoted_text (jsonKey delta "content") with
                | none => .stop (mkStop .panicked true false st)
                | some text =>
                  .cont ⟨true, (post_process st.print_buffer text).2,
                         st.printed ++ (post_process st.print_buffer text).1,
                         st.checks⟩ true
          else if (jsonGet v "error").isSome then
            match value2unquoted_text (jsonKey (jsonKey v "error") "message") with
            | none => .stop (mkStop .panicked true false st)
            | some _msg => .stop (mkStop .finished false false st)
          else .stop (mkStop .finished false false st)
  else if line ≠ [] then
    if !st.had_first_success then
      match should_retry (parse ⟨line⟩) count with
      | none => .stop (mkStop .panicked true false st)
      | some true => .stop (mkStop .retry true false st)
      | some false => .stop (mkStop .finished false false st)
    else .stop (mkStop .finished false false st)
  else .cont st true

/-- `prompt.rs` lines 228–280: process the segments of one chunk in order;
after each segment that falls through the `if`/`else if` chain, load the
`abort` flag (the k-th load observes `abortSig k`) and, when it is set,
store `false` to it, run `finish_prompt`, and return `Ok(false)`. -/
def runLines (parse : String → Option Json) (abortSig : Nat → Bool) (count : Int) :
    List (List Char) → LoopState → LoopState ⊕ ReqResult
  | [], st => .inl st
  | line :: rest, st =>
    match processLine parse count st line with
    | .stop r => .inr r
    | .cont st' doCheck =>
      if doCheck then
        if abortSig st'.checks then
          .inr (mkStop .finished false true {st' with checks := st'.checks + 1})
        else runLines parse abortSig count rest {st' with checks := st'.checks + 1}
      else runLines parse abortSig count rest st'

/-- `prompt.rs` lines 221–284: the chunk loop.  Each chunk is appended to
`data_buffer` (which the previous iteration cleared, so the buffer equals
the chunk) and split on the blank line separator; when the body stream is
exhausted, `finish_prompt` runs and `Ok(false)` is returned — the pending
fragment buffer is not flushed anywhere. -/
def runChunks (parse : String → Option Json) (abortSig : Nat → Bool) (count : Int) :
    List String → LoopState → ReqResult
  | [], st => mkStop .finished false false st
  | chunk :: rest, st =>
    match runLines parse abortSig count (splitEvents chunk.data) st with
    | .inr r => r
    | .inl st' => runChunks parse abortSig count rest st'

/-- The network interaction of one `request` call: either the connection
attempt fails (`client.request(req).await` returns `Err`), or it yields a
sequence of body chunks, each modelled as its UTF-8 text. -/
inductive NetResult where
  | connectFail (e : String)
  | response (chunks : List String)

/-- The initial loop state of `request`: `had_first_success = false`,
empty buffers, nothing printed. -/
def initLoop : LoopState := ⟨false, [], "", 0⟩

/-- `prompt.rs` lines 143–285 (`request`): stores `true` to `is_running`,
builds the request body, performs the request and consumes the stream.
The first component is the JSON body sent; the second the observable
result.  A connection failure prints the error and runs `finish_prompt`
(`Ok(false)`). -/
def request (parse : String → Option Json) (abortSig : Nat → Bool)
    (config : Config) (prompt : String) (count : Int) (net : NetResult) :
    Json × ReqResult :=
  (request_body config prompt,
   match net with
   | .connectFail _ => mkStop .finished false false initLoop
   | .response chunks => runChunks parse abortSig count chunks initLoop)

/-! ## The producer loop (`main.rs` lines 189–243)

One iteration of the producer: a readline result arrives and the match at
`main.rs` lines 204–242 runs.  The effect records the new flag values,
the messages sent on the channel, and whether the loop breaks. -/

/-- What `rl.readline` (or the piped-stdin read) produced. -/
inductive ReadEvent where
  | lineOk (s : String)
  | interrupted
  | eofReached
  | otherErr

/-- The effect of one producer iteration: resulting flag values, channel
messages sent (`none` is the end-of-input sentinel), and whether the
producer loop breaks. -/
structure ProdEffect where
  abort : Bool
  hadFirstInterrupt : Bool
  isRunning : Bool
  sends : List (Option String)
  breaks : Bool
  deriving DecidableEq

/-- `main.rs` lines 204–242: the producer's handling of one readline
result, given the current values of the shared flags.  The producer only
ever loads `is_running`; it never stores to it. -/
def producerStep (double_ctrlc : Bool) (isRunning abort hadFI : Bool)
    (ev : ReadEvent) : ProdEffect :=
  match ev with
  | .lineOk s =>
    let abort' := if isRunning then true else abort
    if s = "" then ⟨abort', hadFI, isRunning, [], false⟩
    else ⟨abort', false, isRunning, [some s], false⟩
  | .interrupted =>
    if isRunning then ⟨true, hadFI, isRunning, [], false⟩
    else if double_ctrlc && !hadFI then ⟨abort, true, isRunning, [], false⟩
    else ⟨abort, hadFI, isRunning, [none], true⟩
  | .eofReached => ⟨abort, hadFI, isRunning, [none], true⟩
  | .otherErr => ⟨abort, hadFI, isRunning, [none], true⟩

/-! ## Concrete example inputs

Parse functions below model `serde_json::from_str` on the concrete frame
payloads used in the theorems; each maps one short tag to the parse tree
of the JSON text named in its doc comment and rejects everything else. -/

/-- A configuration that passes every pure check of `Config::validate`. -/
def exConfig : Config :=
  ⟨some "sk-test", "gpt-4", 1000, 1, none, 1, 2, true, ["END"], 0, 0,
   [("50256", -2)], ⟨true, false, true, false, true, "history"⟩⟩

/-- Parse result of a role-marker frame payload, the JSON text
`{"choices":[{"delta":{"role":"assistant"}}]}` (braces elided here),
delivered for the tag `ROLE`. -/
def parseRoleEx : String → Option Json := fun s =>
  if s = "ROLE" then
    some (Json.obj
      [("choices", Json.arr [Json.obj [("delta", Json.obj [("role", Json.str "assistant")])]])])
  else none

/-- Parse result of an in-stream provider error payload with
`error.type = "server_error"` and a string `error.message`, delivered
for the tag `SERR`. -/
def parseSErrEx : String → Option Json := fun s =>
  if s = "SERR" then
    some (Json.obj
      [("error", Json.obj [("type", Json.str "server_error"), ("message", Json.str "overloaded")])])
  else none

/-- Parse result of a provider error payload whose `error` object has a
`type` but no `message` field, delivered for the tag `BADERR`. -/
def parseBadEx : String → Option Json := fun s =>
  if s = "BADERR" then
    some (Json.obj [("error", Json.obj [("type", Json.str "server_error")])])
  else none

/-- Parse result of a content-delta frame whose delta text is a single
backslash, delivered for the tag `D1`. -/
def parseBSEx : String → Option Json := fun s =>
  if s = "D1" then
    some (Json.obj
      [("choices", Json.arr [Json.obj [("delta", Json.obj [("content", Json.str "\\")])]])])
  else none

/-- Parse result of a content-delta frame whose delta text is `hi`,
delivered for the tag `HI`. -/
def parseHiEx : String → Option Json := fun s =>
  if s = "HI" then
    some (Json.obj
      [("choices", Json.arr [Json.obj [("delta", Json.obj [("content", Json.str "hi")])]])])
  else none

/-- Parse tree of a plain (non-SSE) provider error body with
`error.type = "server_error"`. -/
def serverErrorLine : Json :=
  Json.obj
    [("error", Json.obj
      [("type", Json.str "server_error"), ("message", Json.str "The server had an error")])]

/-- Parse result delivering `serverErrorLine` for the tag `ERRLINE`. -/
def parseErrLineEx : String → Option Json := fun s =>
  if s = "ERRLINE" then some serverErrorLine else none

/-! ## Helper lemmas -/

theorem concatAll_singleton (a : String) : concatAll [a] = a := by
  cases a
  rfl

theorem jsonUnescape_cons (c : Char) (l : List Char) (h : ¬ c = '\\') :
    jsonUnescape (c :: l) = c :: jsonUnescape l := by
  cases l with
  | nil => rfl
  | cons d cs => simp [jsonUnescape, h]

/-- Decoding a JSON string literal undoes the serializer's escaping. -/
theorem jsonEscape_unescape (cs : List Char) :
    jsonUnescape (jsonEscape cs) = cs := by
  induction cs with
  | nil => rfl
  | cons c cs ih =>
    by_cases h1 : c = '\\'
    · subst h1
      show '\\' :: jsonUnescape (jsonEscape cs) = '\\' :: cs
      rw [ih]
    · by_cases h2 : c = '"'
      · subst h2
        show '"' :: jsonUnescape (jsonEscape cs) = '"' :: cs
        rw [ih]
      · by_cases h3 : c = '\n'
        · subst h3
          show '\n' :: jsonUnescape (jsonEscape cs) = '\n' :: cs
          rw [ih]
        · have he : jsonEscape (c :: cs) = c :: jsonEscape cs := by
            simp [jsonEscape, jsonEscapeChar, h1, h2, h3]
          rw [he, jsonUnescape_cons c _ h1, ih]

theorem escQuotes_length (cs : List Char) :
    (escQuotes cs).length = cs.length + cs.count '"' := by
  induction cs with
  | nil => rfl
  | cons c cs ih =>
    by_cases h : c = '"'
    · subst h
      simp [escQuotes, ih, List.count_cons]
      omega
    · simp [escQuotes, h, ih, List.count_cons]
      omega

/-- Quote-escaping strictly lengthens any string containing a quote, so
the sanitized text differs from the original. -/
theorem escQuotes_ne (cs : List Char) (h : '"' ∈ cs) : escQuotes cs ≠ cs := by
  intro he
  have hl := congrArg List.length he
  rw [escQuotes_length] at hl
  have hc : 0 < cs.count '"' := List.count_pos_iff.mpr h
  omega

/-- Case analysis of one `for line in events` iteration.  When the loop
continues, the check counter is untouched, the printed text only grows,
and `had_first_success` never falls back to `false`.  When `request`
returns, the result carries the printed text and buffer unchanged, no
stop inside `processLine` clears the abort flag, and an `Ok(true)`
(retry) return can only come from the no-content-yet branch on a
non-`data:`, non-empty segment whose parse satisfies `should_retry`. -/
theorem processLine_spec (parse : String → Option Json) (count : Int)
    (st : LoopState) (line : List Char) :
    (∀ st' chk, processLine parse count st line = .cont st' chk →
      st'.checks = st.checks ∧
      (∃ t, st'.printed = st.printed ++ t) ∧
      (st.had_first_success = true → st'.had_first_success = true)) ∧
    (∀ r, processLine parse count st line = .stop r →
      r.printed = st.printed ∧
      r.leftover = st.print_buffer ∧
      r.abortCleared = false ∧
      r.checks = st.checks ∧
      (r.outcome = .retry →
        st.had_first_success = false ∧
        r.is_running = true ∧
        should_retry (parse ⟨line⟩) count = some true ∧
        ['d', 'a', 't', 'a', ':'].isPrefixOf line = false ∧
        line ≠ [])) := by
  constructor
  · intro st' chk h
    unfold processLine at h
    repeat' split at h
    all_goals cases h
    all_goals refine ⟨rfl, ?_, ?_⟩
    · exact ⟨"", (String.append_empty _).symm⟩
    · exact fun hh => hh
    · exact ⟨"", (String.append_empty _).symm⟩
    · exact fun hh => hh
    · exact ⟨_, rfl⟩
    · exact fun _ => rfl
    · exact ⟨"", (String.append_empty _).symm⟩
    · exact fun hh => hh
  · intro r h
    unfold processLine at h
    repeat' split at h
    all_goals cases h
    all_goals refine ⟨rfl, rfl, rfl, rfl, fun hr => ?_⟩
    all_goals simp only [mkStop] at hr
    all_goals first
      | exact Outcome.noConfusion hr
      | (refine ⟨?_, rfl, ?_, ?_, ?_⟩ <;>
          first
            | assumption
            | (rw [Bool.eq_false_iff]
               intro hb
               simp_all [List.isPrefixOf_iff_prefix]))

/-- Invariants of the per-chunk event loop: delivered text only grows
(no rollback), the only exit that clears the abort flag is the
abort-observation branch (which runs `finish_prompt`), and no retry can
be produced once a content delta has been delivered. -/
theorem runLines_spec (parse : String → Option Json) (sig : Nat → Bool) (count : Int)
    (lines : List (List Char)) : ∀ (st : LoopState),
    (∀ st', runLines parse sig count lines st = .inl st' →
      (∃ t, st'.printed = st.printed ++ t) ∧
      (st.had_first_success = true → st'.had_first_success = true)) ∧
    (∀ r, runLines parse sig count lines st = .inr r →
      (∃ t, r.printed = st.printed ++ t) ∧
      (r.abortCleared = true → r.outcome = .finished ∧ r.is_running = false) ∧
      (st.had_first_success = true → r.outcome ≠ .retry)) := by
  induction lines with
  | nil =>
    intro st
    constructor
    · intro st' h
      cases h
      exact ⟨⟨"", (String.append_empty _).symm⟩, fun hh => hh⟩
    · intro r h
      cases h
  | cons line rest ih =>
    intro st
    have hps := processLine_spec parse count st line
    constructor
    · intro st' h
      unfold runLines at h
      cases hp : processLine parse count st line with
      | stop r0 =>
        rw [hp] at h
        cases h
      | cont st0 doCheck =>
        rw [hp] at h
        obtain ⟨hck, ⟨t0, hpr⟩, hmono⟩ := hps.1 st0 doCheck hp
        cases doCheck with
        | false =>
          simp only [Bool.false_eq_true, if_false] at h
          obtain ⟨⟨t1, hpr1⟩, hmono1⟩ := (ih st0).1 st' h
          exact ⟨⟨t0 ++ t1, by rw [hpr1, hpr, String.append_assoc]⟩,
                 fun hh => hmono1 (hmono hh)⟩
        | true =>
          simp only [if_true] at h
          cases hsig : sig st0.checks with
          | true => rw [hsig] at h; simp at h
          | false =>
            rw [hsig] at h
            simp only [Bool.false_eq_true, if_false] at h
            obtain ⟨⟨t1, hpr1⟩, hmono1⟩ := (ih {st0 with checks := st0.checks + 1}).1 st' h
            exact ⟨⟨t0 ++ t1, by rw [hpr1]; show st0.printed ++ t1 = _; rw [hpr, String.append_assoc]⟩,
                   fun hh => hmono1 (hmono hh)⟩
    · intro r h
      unfold runLines at h
      cases hp : processLine parse count st line with
      | stop r0 =>
        rw [hp] at h
        cases h
        obtain ⟨hpr, _hbuf, hcl, _hck, hret⟩ := hps.2 r hp
        refine ⟨⟨"", by rw [hpr, String.append_empty]⟩, ?_, ?_⟩
        · intro hc
          rw [hcl] at hc
          cases hc
        · intro hh hout
          exact absurd hh (by simp [(hret hout).1])
      | cont st0 doCheck =>
        rw [hp] at h
        obtain ⟨hck, ⟨t0, hpr⟩, hmono⟩ := hps.1 st0 doCheck hp
        cases doCheck with
        | false =>
          simp only [Bool.false_eq_true, if_false] at h
          obtain ⟨⟨t1, hpr1⟩, hcl1, hret1⟩ := (ih st0).2 r h
          exact ⟨⟨t0 ++ t1, by rw [hpr1, hpr, String.append_assoc]⟩, hcl1,
                 fun hh => hret1 (hmono hh)⟩
        | true =>
          simp only [if_true] at h
          cases hsig : sig st0.checks with
          | true =>
            rw [hsig] at h
            simp only [if_true] at h
            cases h
            refine ⟨⟨t0, hpr⟩, fun _ => ⟨rfl, rfl⟩, fun _ hout => ?_⟩
            exact Outcome.noConfusion hout
          | false =>
            rw [hsig] at h
            simp only [Bool.false_eq_true, if_false] at h
            obtain ⟨⟨t1, hpr1⟩, hcl1, hret1⟩ := (ih {st0 with checks := st0.checks + 1}).2 r h
            exact ⟨⟨t0 ++ t1, by rw [hpr1]; show st0.printed ++ t1 = _; rw [hpr, String.append_assoc]⟩,
                   hcl1, fun hh => hret1 (hmono hh)⟩

/-- The same invariants lifted to the whole chunk loop of `request`. -/
theorem runChunks_spec (parse : String → Option Json) (sig : Nat → Bool) (count : Int)
    (chunks : List String) : ∀ (st : LoopState),
    (∃ t, (runChunks parse sig count chunks st).printed = st.printed ++ t) ∧
    ((runChunks parse sig count chunks st).abortCleared = true →
      (runChunks parse sig count chunks st).outcome = .finished ∧
      (runChunks parse sig count chunks st).is_running = false) ∧
    (st.had_first_success = true → (runChunks parse sig count chunks st).outcome ≠ .retry) := by
  induction chunks with
  | nil =>
    intro st
    refine ⟨⟨"", (String.append_empty _).symm⟩, fun hc => ?_, fun _ hout => ?_⟩
    · cases hc
    · exact Outcome.noConfusion hout
  | cons chunk rest ih =>
    intro st
    unfold runChunks
    cases hr : runLines parse sig count (splitEvents chunk.data) st with
    | inr r =>
      obtain ⟨hpr, hcl, hret⟩ := (runLines_spec parse sig count (splitEvents chunk.data) st).2 r hr
      exact ⟨hpr, hcl, hret⟩
    | inl st' =>
      obtain ⟨⟨t0, hpr0⟩, hmono⟩ := (runLines_spec parse sig count (splitEvents chunk.data) st).1 st' hr
      obtain ⟨⟨t1, hpr1⟩, hcl1, hret1⟩ := ih st'
      exact ⟨⟨t0 ++ t1, by rw [hpr1, hpr0, String.append_assoc]⟩, hcl1,
             fun hh => hret1 (hmono hh)⟩

/-- When control reaches the abort-flag check (a content delta was just
delivered, or an empty keep-alive segment went by) and the flag is
observed set, the loop returns immediately: everything already printed
stays, the abort flag is stored `false`, and `finish_prompt` stores
`false` to `is_running`. -/
theorem runLines_stop_on_abort (parse : String → Option Json) (sig : Nat → Bool)
    (count : Int) (line : List Char) (rest : List (List Char)) (st st' : LoopState)
    (h : processLine parse count st line = .cont st' true)
    (ha : sig st'.checks = true) :
    runLines parse sig count (line :: rest) st =
      .inr ⟨.finished, st'.printed, st'.print_buffer, false, true, st'.checks + 1⟩ := by
  unfold runLines
  rw [h]
  simp [ha, mkStop]

/-! ## Claims -/

/-- C1, counterexample: the claim is false on the code.  For this
configuration, which passes every pure validation check and carries
non-default `top_p`, `n`, `stop`, penalty and `logit_bias` settings, the
streaming request body contains none of the fields `top_p`, `n`, `stop`,
`presence_penalty`, `frequency_penalty`, `logit_bias`: they are not
passed through. -/
theorem C1_counterexample :
    Config.validOk exConfig = true ∧
    exConfig.n = 2 ∧ exConfig.stop = ["END"] ∧ exConfig.logit_bias = [("50256", -2)] ∧
    jsonGet (request_body exConfig "hello") "top_p" = none ∧
    jsonGet (request_body exConfig "hello") "n" = none ∧
    jsonGet (request_body exConfig "hello") "stop" = none ∧
    jsonGet (request_body exConfig "hello") "presence_penalty" = none ∧
    jsonGet (request_body exConfig "hello") "frequency_penalty" = none ∧
    jsonGet (request_body exConfig "hello") "logit_bias" = none :=
  ⟨by decide, rfl, rfl, rfl, rfl, rfl, rfl, rfl, rfl, rfl⟩

/-- C1, amended: for every configuration and submitted line, the body of
the streaming request built by `request` holds exactly one User-role
message — the sanitized new line, with no prior turns (the client keeps
no conversation) — and passes through only `model`, `max_tokens` and
`temperature`, plus the constant `stream: true`; `top_p`, `n`, `stop`,
`presence_penalty`, `frequency_penalty` and `logit_bias` are absent. -/
theorem C1_request_fields (config : Config) (prompt : String)
    (parse : String → Option Json) (sig : Nat → Bool) (count : Int) (net : NetResult) :
    (request parse sig config prompt count net).1 = request_body config prompt ∧
    jsonGet (request_body config prompt) "messages" =
      some (.arr [.obj [("role", .str "user"), ("content", .str (sanitize_input prompt))]]) ∧
    jsonGet (request_body config prompt) "model" = some (.str config.model) ∧
    jsonGet (request_body config prompt) "max_tokens" = some (.num config.max_tokens) ∧
    jsonGet (request_body config prompt) "temperature" = some (.fnum config.temperature) ∧
    jsonGet (request_body config prompt) "stream" = some (.bool true) ∧
    jsonGet (request_body config prompt) "top_p" = none ∧
    jsonGet (request_body config prompt) "n" = none ∧
    jsonGet (request_body config prompt) "stop" = none ∧
    jsonGet (request_body config prompt) "presence_penalty" = none ∧
    jsonGet (request_body config prompt) "frequency_penalty" = none ∧
    jsonGet (request_body config prompt) "logit_bias" = none :=
  ⟨rfl, rfl, rfl, rfl, rfl, rfl, rfl, rfl, rfl, rfl, rfl, rfl⟩

/-- C2, counterexample: the claim is false on the code.  A non-empty line
received while a request is streaming (`isRunning = true`) is converted
into an abort signal AND is still enqueued to the consumer as a new
submission — `sends` is not empty. -/
theorem C2_counterexample :
    (producerStep true true false false (ReadEvent.lineOk "second line")).abort = true ∧
    (producerStep true true false false (ReadEvent.lineOk "second line")).sends
      = [some "second line"] ∧
    (producerStep true true false false (ReadEvent.lineOk "second line")).sends ≠ [] := by
  decide

/-- C2, amended: a non-empty line received while `isRunning = true` sets
the abort flag and is also enqueued to the consumer as a new submission
(it is processed after the current request terminates, since the consumer
handles one queue message at a time); `hadFirstInterrupt` is reset and the
producer loop continues. -/
theorem C2_line_while_streaming (dc ab hadFI : Bool) (s : String) (h : s ≠ "") :
    producerStep dc true ab hadFI (.lineOk s) = ⟨true, false, true, [some s], false⟩ := by
  simp [producerStep, h]

/-- C2, witness for `C2_line_while_streaming`. -/
theorem C2_witness :
    producerStep true true false true (.lineOk "hi") = ⟨true, false, true, [some "hi"], false⟩ :=
  C2_line_while_streaming true false true "hi" (by decide)

/-- C8, counterexample: the claim is false on the code.  When
double-Ctrl-C-to-quit is not configured (`double_ctrlc = false`), the
very first interrupt delivered while idle (`isRunning = false`,
`hadFirstInterrupt = false`) enqueues the end-of-input sentinel and
terminates the producer loop, and `hadFirstInterrupt` stays false. -/
theorem C8_counterexample :
    producerStep false false false false ReadEvent.interrupted =
      ⟨false, false, false, [none], true⟩ := by
  decide

/-- C8, amended: when double-Ctrl-C-to-quit is configured, an interrupt
delivered while `isRunning = false` and `hadFirstInterrupt = false` does
not terminate the producer loop and sets `hadFirstInterrupt = true`
(printing a warning); a second interrupt arriving with
`hadFirstInterrupt = true` enqueues the end-of-input sentinel and
terminates the producer loop. -/
theorem C8_double_interrupt (ab : Bool) :
    producerStep true false ab false ReadEvent.interrupted = ⟨ab, true, false, [], false⟩ ∧
    (∀ dc, producerStep dc false ab true ReadEvent.interrupted =
      ⟨ab, true, false, [none], true⟩) := by
  refine ⟨rfl, fun dc => ?_⟩
  cases dc <;> rfl

/-- C6: evaluation of the code at the failing input.  The stream delivers
one content delta consisting of a lone backslash, which `fix_newlines`
buffers; on receipt of `[DONE]` (first conjunct) or at natural stream end
(second conjunct) `request` returns with nothing printed and the fragment
still pending — the buffer is never force-flushed, so the trailing lone
backslash is silently dropped, contrary to the claim. -/
theorem C6_buffer_dropped :
    runChunks parseBSEx (fun _ => false) 1 ["data: D1\n\ndata: [DONE]"] initLoop =
      ⟨.finished, "", ["\\"], false, false, 1⟩ ∧
    runChunks parseBSEx (fun _ => false) 1 ["data: D1\n\n"] initLoop =
      ⟨.finished, "", ["\\"], false, false, 2⟩ := by
  decide

/-- C7, counterexample: the claim is false on the code.  It quantifies
over ALL second fragments `b`; take `a = b = "\"` (each a lone
backslash).  After `a` is buffered, processing `b` buffers again and
returns the empty string, not `normalize(a + b) = "\\"` as claimed. -/
theorem C7_counterexample :
    fix_newlines ["\\"] "\\" = ("", ["\\", "\\"]) ∧
    (fix_newlines ["\\"] "\\").1 ≠ normalizeEsc ("\\" ++ "\\") := by
  decide

/-- C7, amended: for fragment pairs `(a, b)` where `a` ends with the lead
byte and `b` does NOT itself end with the lead byte, processing `a` (from
an empty buffer) returns the empty string and buffers `a`, and the
subsequent processing of `b` returns `normalize(a + b)`, where `normalize`
replaces every literal backslash-n pair by a newline, and clears the
buffer. -/
theorem C7_reassembly (a b : String)
    (ha : endsBackslash a = true) (hb : endsBackslash b = false) :
    fix_newlines [] a = ("", [a]) ∧
    fix_newlines [a] b = (normalizeEsc (a ++ b), []) := by
  constructor
  · simp [fix_newlines, ha, store_and_do_nothing]
  · simp [fix_newlines, hb, join_and_clear, concatAll_singleton]

/-- C7, witness for `C7_reassembly`. -/
theorem C7_witness :
    fix_newlines [] "ends with \\" = ("", ["ends with \\"]) ∧
    fix_newlines ["ends with \\"] "n more" = (normalizeEsc ("ends with \\" ++ "n more"), []) :=
  C7_reassembly "ends with \\" "n more" (by decide) (by decide)

/-- C9: evaluation of the code at the failing inputs.  First conjunct: an
SSE frame carrying an error object without a `message` field drives
`value2unquoted_text` into `Option::unwrap` on `None` — a panic (the
consumer thread dies with `is_running` left `true`, and the process dies
at `handle.join().unwrap()`), not a retry or a surfaced error.  Second
conjunct: a plain error body whose `error` object has no `type` field
panics inside `should_retry` the same way. -/
theorem C9_panicking_payload :
    runChunks parseBadEx (fun _ => false) 1 ["data: BADERR"] initLoop =
      ⟨.panicked, "", [], true, false, 0⟩ ∧
    should_retry (some (Json.obj [("error", Json.obj [])])) 1 = none := by
  decide

/-- C10: the message content placed in the outbound request is the
submitted line with trailing newlines trimmed and every double quote
replaced by backslash-quote; the JSON serializer escapes the inserted
backslash again, and after the provider's decoder undoes that escaping
the provider receives exactly the sanitized text — which has a literal
backslash before each double quote and so differs from the user's
original (trimmed) text whenever it contains a double quote. -/
theorem C10_content_escaping (config : Config) (prompt : String) :
    jsonGet (jsonAt (jsonKey (request_body config prompt) "messages") 0) "content" =
      some (.str (sanitize_input prompt)) ∧
    (sanitize_input prompt).data = escQuotes (trimNL prompt.data) ∧
    jsonUnescape (jsonEscape (sanitize_input prompt).data) = (sanitize_input prompt).data ∧
    ('"' ∈ trimNL prompt.data → (sanitize_input prompt).data ≠ trimNL prompt.data) := by
  refine ⟨rfl, rfl, jsonEscape_unescape _, fun hq => ?_⟩
  show escQuotes (trimNL prompt.data) ≠ trimNL prompt.data
  exact escQuotes_ne _ hq

/-- C10, witness for `C10_content_escaping`. -/
theorem C10_witness :
    ('"' ∈ trimNL ("say \"hi\"\n").data) ∧
    (sanitize_input "say \"hi\"\n").data ≠ trimNL ("say \"hi\"\n").data :=
  ⟨by decide,
   (C10_content_escaping exConfig "say \"hi\"\n").2.2.2 (by decide)⟩

/-- C3, counterexample: the claim is false on the code.  The abort flag
reads `true` at every conceivable check, yet a chunk holding one
successfully parsed role-marker frame (and no trailing blank line) is
consumed with zero abort checks: the `continue` for a frame whose delta
has no `content` skips the per-frame check, so the flag is neither
observed nor reset during the whole request. -/
theorem C3_counterexample :
    (runChunks parseRoleEx (fun _ => true) 1 ["data: ROLE"] initLoop).checks = 0 ∧
    (runChunks parseRoleEx (fun _ => true) 1 ["data: ROLE"] initLoop).abortCleared = false ∧
    (runChunks parseRoleEx (fun _ => true) 1 ["data: ROLE"] initLoop).outcome =
      Outcome.finished := by
  decide

/-- C3, amended: an interrupt delivered while `isRunning = true` sets the
abort flag (without sending on the queue, breaking the producer loop, or
touching `isRunning`); the streaming loop checks the flag after each
delivered content delta and after each empty keep-alive segment (frames
skipped by `continue` — missing delta, or role markers without content —
do not reach the check), and when the flag is observed set the loop stops
reading immediately, keeps everything already printed, stores `false` to
the abort flag and then to `is_running`; in every run the delivered text
only grows (no rollback), and any exit that cleared the abort flag has
`is_running = false` and outcome `Ok(false)`, so `is_running` stays down
until the consumer dequeues the next submitted line (the producer never
stores to it). -/
theorem C3_abort_protocol :
    (∀ dc ab fi, producerStep dc true ab fi ReadEvent.interrupted = ⟨true, fi, true, [], false⟩) ∧
    (∀ (parse : String → Option Json) (sig : Nat → Bool) (count : Int) line rest st st',
       processLine parse count st line = .cont st' true →
       sig st'.checks = true →
       runLines parse sig count (line :: rest) st =
         .inr ⟨.finished, st'.printed, st'.print_buffer, false, true, st'.checks + 1⟩) ∧
    (∀ (parse : String → Option Json) (sig : Nat → Bool) (count : Int) chunks st,
       (∃ t, (runChunks parse sig count chunks st).printed = st.printed ++ t) ∧
       ((runChunks parse sig count chunks st).abortCleared = true →
         (runChunks parse sig count chunks st).outcome = .finished ∧
         (runChunks parse sig count chunks st).is_running = false)) :=
  ⟨fun _ _ _ => rfl,
   fun parse sig count line rest st st' h ha =>
     runLines_stop_on_abort parse sig count line rest st st' h ha,
   fun parse sig count chunks st =>
     ⟨(runChunks_spec parse sig count chunks st).1,
      (runChunks_spec parse sig count chunks st).2.1⟩⟩

/-- C3, witness for `C3_abort_protocol`: a content delta is delivered,
the check after it observes the flag set, and the loop stops with the
delta kept, the flag cleared and `is_running` false. -/
theorem C3_witness :
    runLines parseHiEx (fun _ => true) 1 [("data: HI").data] initLoop =
      .inr ⟨.finished, "hi", [], false, true, 1⟩ :=
  C3_abort_protocol.2.1 parseHiEx (fun _ => true) 1 ("data: HI").data [] initLoop
    ⟨true, [], "hi", 0⟩ (by decide) rfl

/-- C4, counterexample: the claim is false on the code.  A provider error
with type `server_error` arriving inside a `data:` frame, before any
content delta and with attempts remaining (attempt 1 of 3), terminates
the turn (`Ok(false)`) instead of causing a retry: only bare non-SSE
error lines go through `should_retry`. -/
theorem C4_counterexample :
    (runChunks parseSErrEx (fun _ => false) 1 ["data: SERR"] initLoop).outcome =
      Outcome.finished ∧
    (runChunks parseSErrEx (fun _ => false) 1 ["data: SERR"] initLoop).outcome ≠
      Outcome.retry := by
  decide

/-- C4, amended: a turn is resubmitted only for errors encountered before
the first content delta of the attempt, and only when the error arrives
as a bare non-`data:`, non-empty line whose JSON has
`error.type = "server_error"` with `attempt < 3` (first two conjuncts:
the retry exit implies exactly these conditions, and they suffice); once
streaming content has begun no run retries (third conjunct); and a
`server_error` payload delivered inside a `data:` frame ends the turn
without retry even before any content delta and with attempts remaining
(fourth conjunct). -/
theorem C4_retry_policy :
    (∀ (parse : String → Option Json) (count : Int) st line r,
       processLine parse count st line = .stop r → r.outcome = .retry →
       st.had_first_success = false ∧
       should_retry (parse ⟨line⟩) count = some true ∧
       ['d', 'a', 't', 'a', ':'].isPrefixOf line = false ∧ line ≠ []) ∧
    (∀ (parse : String → Option Json) (count : Int) st line,
       st.had_first_success = false →
       ['d', 'a', 't', 'a', ':'].isPrefixOf line = false → line ≠ [] →
       should_retry (parse ⟨line⟩) count = some true →
       processLine parse count st line =
         .stop ⟨.retry, st.printed, st.print_buffer, true, false, st.checks⟩) ∧
    (∀ (parse : String → Option Json) (sig : Nat → Bool) (count : Int) chunks st,
       st.had_first_success = true →
       (runChunks parse sig count chunks st).outcome ≠ .retry) ∧
    (∀ (parse : String → Option Json) (count : Int) st line v e m,
       ['d', 'a', 't', 'a', ':'].isPrefixOf line = true → 6 ≤ line.length →
       (⟨line.drop 6⟩ : String) ≠ "[DONE]" →
       parse ⟨line.drop 6⟩ = some v →
       jsonGet v "choices" = none →
       jsonGet v "error" = some e →
       asStr (jsonKey e "type") = some "server_error" → count < 3 →
       asStr (jsonKey e "message") = some m →
       processLine parse count st line =
         .stop ⟨.finished, st.printed, st.print_buffer, false, false, st.checks⟩) := by
  refine ⟨?_, ?_, ?_, ?_⟩
  · intro parse count st line r h hout
    have := (processLine_spec parse count st line).2 r h
    exact ⟨(this.2.2.2.2 hout).1, (this.2.2.2.2 hout).2.2.1,
           (this.2.2.2.2 hout).2.2.2.1, (this.2.2.2.2 hout).2.2.2.2⟩
  · intro parse count st line h1 h2 h3 h4
    simp [processLine, h1, h2, h3, h4, mkStop]
  · intro parse sig count chunks st h
    exact (runChunks_spec parse sig count chunks st).2.2 h
  · intro parse count st line v e m h1 h2 h3 h4 h5 h6 _h7 _h8 h9
    have h9m : asStr ((jsonGet e "message").getD Json.null) = some m := by
      simpa [jsonKey] using h9
    simp [processLine, h1, Nat.not_lt.mpr h2, h3, h4, h5, h6, jsonKey,
          value2unquoted_text, h9m, mkStop]

/-- C4, witness for `C4_retry_policy`: a bare `server_error` body at
attempt 1 retries; the same error inside a `data:` frame does not. -/
theorem C4_witness :
    processLine parseErrLineEx 1 initLoop ("ERRLINE").data =
      .stop ⟨.retry, "", [], true, false, 0⟩ ∧
    processLine parseSErrEx 1 initLoop ("data: SERR").data =
      .stop ⟨.finished, "", [], false, false, 0⟩ :=
  ⟨C4_retry_policy.2.1 parseErrLineEx 1 initLoop ("ERRLINE").data rfl (by decide) (by decide)
     (by decide),
   C4_retry_policy.2.2.2 parseSErrEx 1 initLoop ("data: SERR").data
     (Json.obj
       [("error", Json.obj
         [("type", Json.str "server_error"), ("message", Json.str "overloaded")])])
     (Json.obj [("type", Json.str "server_error"), ("message", Json.str "overloaded")])
     "overloaded" (by decide) (by decide) (by decide) rfl rfl rfl rfl (by decide) rfl⟩

/-- C5, counterexample: the claim is false on the code.  For valid JSON
whose `error.type` is not a string (here the number 3) at attempt 5, the
claim demands `false` (attempt ≥ 3 regardless of error type), but
`should_retry` evaluates `error.type` before checking the attempt bound
and panics in `Option::unwrap` (modelled `none`) instead of returning. -/
theorem C5_counterexample :
    should_retry (some (Json.obj [("error", Json.obj [("type", Json.num 3)])])) 5 ≠
      some false := by
  decide

/-- C5, amended: `should_retry` returns true iff the input parses as JSON
carrying an `error` object whose `type` is the string `"server_error"`
and the attempt counter is below 3; it returns false for non-JSON input
(and for JSON without an `error` field, a non-matching type string, or an
exhausted counter); but when an `error` field is present whose `type` is
missing or not a string, it panics instead of returning false — even when
the attempt counter is already exhausted. -/
theorem C5_should_retry_characterization (parsed : Option Json) (count : Int) :
    (should_retry parsed count = some true ↔
      ∃ v e, parsed = some v ∧ jsonGet v "error" = some e ∧
        asStr (jsonKey e "type") = some "server_error" ∧ count < 3) ∧
    (should_retry parsed count = none ↔
      ∃ v e, parsed = some v ∧ jsonGet v "error" = some e ∧
        asStr (jsonKey e "type") = none) ∧
    should_retry none count = some false := by
  refine ⟨?_, ?_, rfl⟩ <;> revert parsed <;> intro parsed
  case refine_1 =>
    cases parsed with
    | none => simp [should_retry]
    | some v =>
      cases he : jsonGet v "error" with
      | none =>
        have hsr : should_retry (some v) count = some false := by
          simp [should_retry, he]
        rw [hsr]
        constructor
        · intro h
          exact Bool.noConfusion (Option.some.inj h)
        · rintro ⟨v', e', hv, he', _⟩
          cases hv
          rw [he] at he'
          cases he'
      | some e =>
        have hk : jsonKey v "error" = e := by simp [jsonKey, he]
        cases ht : asStr (jsonKey e "type") with
        | none =>
          have hsr : should_retry (some v) count = none := by
            simp [should_retry, he, hk, value2unquoted_text, ht]
          rw [hsr]
          constructor
          · intro h
            cases h
          · rintro ⟨v', e', hv, he', ht', _⟩
            cases hv
            rw [he] at he'
            cases he'
            rw [ht] at ht'
            cases ht'
        | some t =>
          by_cases hc : count < 3 ∧ t = "server_error"
          · have hsr : should_retry (some v) count = some true := by
              simp [should_retry, he, hk, value2unquoted_text, ht, hc]
            rw [hsr]
            constructor
            · intro _
              exact ⟨v, e, rfl, he, by rw [ht, hc.2], hc.1⟩
            · intro _
              rfl
          · have hsr : should_retry (some v) count = some false := by
              simp [should_retry, he, hk, value2unquoted_text, ht, hc]
            rw [hsr]
            constructor
            · intro h
              exact Bool.noConfusion (Option.some.inj h)
            · rintro ⟨v', e', hv, he', ht', hcnt⟩
              cases hv
              rw [he] at he'
              cases he'
              rw [ht] at ht'
              exact absurd ⟨hcnt, Option.some.inj ht'⟩ hc
  case refine_2 =>
    cases parsed with
    | none => simp [should_retry]
    | some v =>
      cases he : jsonGet v "error" with
      | none =>
        have hsr : should_retry (some v) count = some false := by
          simp [should_retry, he]
        rw [hsr]
        constructor
        · intro h
          cases h
        · rintro ⟨v', e', hv, he', _⟩
          cases hv
          rw [he] at he'
          cases he'
      | some e =>
        have hk : jsonKey v "error" = e := by simp [jsonKey, he]
        cases ht : asStr (jsonKey e "type") with
        | none =>
          have hsr : should_retry (some v) count = none := by
            simp [should_retry, he, hk, value2unquoted_text, ht]
          rw [hsr]
          exact ⟨fun _ => ⟨v, e, rfl, he, ht⟩, fun _ => rfl⟩
        | some t =>
          by_cases hc : count < 3 ∧ t = "server_error"
          · have hsr : should_retry (some v) count = some true := by
              simp [should_retry, he, hk, value2unquoted_text, ht, hc]
            rw [hsr]
            constructor
            · intro h
              cases h
            · rintro ⟨v', e', hv, he', ht'⟩
              cases hv
              rw [he] at he'
              cases he'
              rw [ht] at ht'
              cases ht'
          · have hsr : should_retry (some v) count = some false := by
              simp [should_retry, he, hk, value2unquoted_text, ht, hc]
            rw [hsr]
            constructor
            · intro h
              cases h
            · rintro ⟨v', e', hv, he', ht'⟩
              cases hv
              rw [he] at he'
              cases he'
              rw [ht] at ht'
              cases ht'

/-- C5, witness for `C5_should_retry_characterization`: a parsed
`server_error` body at attempt 1 retries. -/
theorem C5_witness :
    should_retry (some serverErrorLine) 1 = some true :=
  (C5_should_retry_characterization (some serverErrorLine) 1).1.mpr
    ⟨serverErrorLine,
     Json.obj [("type", Json.str "server_error"), ("message", Json.str "The server had an error")],
     rfl, rfl, rfl, by decide⟩

end Ata2
